import Mathlib

/-
Verification of the Kubernetes metadata resolution and merge engine of
src/plugins/filter_kubernetes/kube_meta.c (fluent-bit filter_kubernetes
plugin) against its natural-language specification.

The embedding below translates the C source into Lean definitions:
msgpack buffers are modelled by their unpack outcome (`Option MsgObj`,
`none` = msgpack_unpack_next failure), fallible C functions returning
0 / -1 with out-parameters become functions into `Option`, and the one
function that keeps its integer return code distinct from its output
buffer (flb_kube_meta_get, whose return code and out-buffer can disagree)
is modelled by a record carrying both.  External collaborators that the
spec places out of scope (the HTTP transport, the JSON unpacker, the
regex engine) are modelled as explicit inputs: one transport outcome,
one unpack outcome, one ordered list of named-capture results.
-/

set_option linter.unusedVariables false

namespace Kube

/-- Shallow embedding of the msgpack objects this plugin manipulates
(outputs of flb_pack_json and of the local regex packer).  Map keys in
this code are JSON object keys or regex group names, hence strings;
object kinds the merge code never inspects structurally (numbers,
arrays, booleans, nil) are collapsed into `other`. -/
inductive MsgObj where
  | str (s : String)
  | map (entries : List (String × MsgObj))
  | other

/-- Reading `o.via.map` in the C source: for a map object it yields the
entry array; the source performs no type check before the reads modelled
through this function, and for a non-map object we model the access as
yielding no entries. -/
def viaMap : MsgObj → List (String × MsgObj)
  | MsgObj.map es => es
  | _ => []

/-- A serialized merged buffer: the declared map size written by
msgpack_pack_map followed by the entries actually packed.  (The two can
disagree, which is observable in the serialized bytes.) -/
abbrev MergedBuf := Nat × List (String × MsgObj)

/-- The `for` loop of merge_meta (kube_meta.c:315-322): linear scan of the
root map for the first key literally equal to "metadata"
(k.via.str.size == 8 && strncmp(k.via.str.ptr, "metadata", 8) == 0),
breaking at the first hit. -/
def find_metadata : List (String × MsgObj) → Option MsgObj
  | [] => none
  | (k, v) :: rest => if k = "metadata" then some v else find_metadata rest

/-- State of the metadata scan loop of merge_meta (kube_meta.c:333-356):
the C variables have_uid / have_labels / have_annotations (int indices,
-1 = not found, modelled as `Option Nat`) and map_size. -/
structure ScanSt where
  have_uid : Option Nat
  have_labels : Option Nat
  have_annotations : Option Nat
  map_size : Nat

/-- One iteration body of the scan loop (kube_meta.c:333-351): the
if / else-if chain on the current key.  Note the source does not guard
against a key that was already found: a duplicate occurrence overwrites
the stored index and increments map_size again. -/
def scanStep (i : Nat) (k : String) (st : ScanSt) : ScanSt :=
  if k = "uid" then
    { st with have_uid := some i, map_size := st.map_size + 1 }
  else if k = "labels" then
    { st with have_labels := some i, map_size := st.map_size + 1 }
  else if k = "annotations" then
    { st with have_annotations := some i, map_size := st.map_size + 1 }
  else st

/-- The early-exit condition of the scan loop (kube_meta.c:353-355):
have_uid >= 0 && have_labels >= 0 && have_annotations >= 0. -/
def scanBreak (st : ScanSt) : Bool :=
  st.have_uid.isSome && st.have_labels.isSome && st.have_annotations.isSome

/-- The scan loop of merge_meta (kube_meta.c:333-356) over the entries of
the metadata map value, carrying the running index `i`. -/
def meta_scan : List (String × MsgObj) → Nat → ScanSt → ScanSt
  | [], _, st => st
  | (k, _) :: rest, i, st =>
    let st1 := scanStep i k st
    if scanBreak st1 then st1 else meta_scan rest (i + 1) st1

/-- Emission of one optional API-server field (kube_meta.c:369-391): if
the scan recorded an index, pack the entry `meta_val.via.map.ptr[idx]`,
either renaming its key (`pod_id` from `uid`) or keeping key and value
verbatim (`labels`, `annotations`). -/
def emitAt (ms : List (String × MsgObj)) (idx : Option Nat)
    (ren : Option String) : List (String × MsgObj) :=
  match idx with
  | none => []
  | some j =>
    match ms.get? j with
    | none => []
    | some e =>
      match ren with
      | some nk => [(nk, e.2)]
      | none => [e]

/-- Embedding of merge_meta (kube_meta.c:226-401).  Arguments are the
unpack outcomes of the regex-derived buffer and of the API-server buffer
(`none` = msgpack_unpack_next failed).  The result is `none` on every
error path (-1 in C) and otherwise the serialized output: declared map
size and packed entries. -/
def merge_meta (reg_buf api_buf : Option MsgObj) : Option MergedBuf :=
  match reg_buf with
  | none => none
  | some map_obj =>
    match map_obj with
    | MsgObj.map regs =>
      match api_buf with
      | none => none
      | some api_map =>
        match find_metadata (viaMap api_map) with
        | none => none
        | some meta_val =>
          let ms := viaMap meta_val
          let st := meta_scan ms 0
            { have_uid := none, have_labels := none,
              have_annotations := none, map_size := regs.length }
          some (st.map_size,
            regs ++ emitAt ms st.have_uid (some "pod_id")
                 ++ emitAt ms st.have_labels none
                 ++ emitAt ms st.have_annotations none)
    | _ => none

/-- The flb_kube_meta record manipulated by tag_to_meta / cb_results
(podname, namespace, the msgpack buffer of packed regex results, and the
cache key).  The C `namespace` field is called `nspace` because
`namespace` is a Lean keyword; NULL pointers become `none`. -/
structure KubeMeta where
  podname : Option String
  nspace : Option String
  packed : List (String × String)
  cache_key : Option String

/-- Embedding of cb_results (kube_meta.c:203-224): invoked once per
named-capture result, it captures the first `pod_name` and the first
`namespace_name` value into the dedicated fields (the NULL guard makes
later duplicates no-ops there) and appends every (name, value) pair to
the packed record unconditionally. -/
def cb_results (m : KubeMeta) (name value : String) : KubeMeta :=
  let m1 :=
    if m.podname = none ∧ name = "pod_name" then
      { m with podname := some value }
    else if m.nspace = none ∧ name = "namespace_name" then
      { m with nspace := some value }
    else m
  { m1 with packed := m1.packed ++ [(name, value)] }

/-- The zero-initialized flb_kube_meta (struct flb_kube_meta meta = {}
plus the explicit NULL stores of tag_to_meta). -/
def metaZero : KubeMeta :=
  { podname := none, nspace := none, packed := [], cache_key := none }

/-- Embedding of tag_to_meta (kube_meta.c:403-459).  The regex engine is
an external collaborator: its outcome is an input, `none` when
flb_regex_do reports no match (n <= 0), otherwise the ordered list of
named-capture (name, value) results that flb_regex_parse feeds to
cb_results.  On success the function returns the final meta record and
the outgoing buffer (the packed map of all results).  The cache key is
namespace ++ ":" ++ podname when both dedicated fields were captured,
otherwise NULL with length 0. -/
def tag_to_meta (regexResult : Option (List (String × String))) :
    Option (KubeMeta × List (String × String)) :=
  match regexResult with
  | none => none
  | some rr =>
    let m := rr.foldl (fun a p => cb_results a p.1 p.2) metaZero
    let m2 :=
      match m.podname, m.nspace with
      | some p, some ns => { m with cache_key := some (ns ++ ":" ++ p) }
      | _, _ => { m with cache_key := none }
    some (m2, m2.packed)

/-- The cache key tag_to_meta computes for a given list of regex
results. -/
def cacheKeyOf (rr : List (String × String)) : Option String :=
  match tag_to_meta (some rr) with
  | some (m, _) => m.cache_key
  | none => none

/-- The meta->cache_key_len field: namespace_len + 1 + podname_len when a
key was composed, 0 otherwise. -/
def cacheKeyLenOf (rr : List (String × String)) : Nat :=
  match cacheKeyOf rr with
  | some s => s.length
  | none => 0

/-- One transport interaction of get_api_server_info (kube_meta.c:136-201)
with its external collaborators: whether ctx->upstream is set, whether
flb_upstream_conn_get succeeds, the snprintf return for the URI, the
flb_http_do return code, the HTTP response status, and the flb_pack_json
outcome on the payload (`none` = JSON conversion failed). -/
structure ApiEnv where
  upstream : Bool
  conn_ok : Bool
  uri_ret : Int
  http_ret : Int
  status : Int
  pack : Option MsgObj

/-- Embedding of get_api_server_info (kube_meta.c:136-201): every early
return -1 becomes `none`; on success the packed JSON body is returned. -/
def get_api_server_info (env : ApiEnv) : Option MsgObj :=
  if env.upstream = false then none
  else if env.conn_ok = false then none
  else if env.uri_ret = -1 then none
  else if env.http_ret ≠ 0 ∨ env.status ≠ 200 then none
  else env.pack

/-- A transport environment in which every step succeeds and the payload
unpacks to the given root map. -/
def apiEnvOk (as : List (String × MsgObj)) : ApiEnv :=
  { upstream := true, conn_ok := true, uri_ret := 50,
    http_ret := 0, status := 200, pack := some (MsgObj.map as) }

/-- Unpacking the local buffer that tag_to_meta packed: a map whose
values are the captured strings. -/
def localObj (rr : List (String × String)) : MsgObj :=
  MsgObj.map (rr.map (fun p => (p.1, MsgObj.str p.2)))

/-- Embedding of get_and_merge_meta (kube_meta.c:465-495): fetch from the
API server, then merge with the local buffer; either failure propagates
(the api buffer release is a no-op in the model). -/
def get_and_merge_meta (api : ApiEnv) (local_buf : MsgObj) : Option MergedBuf :=
  match get_api_server_info api with
  | none => none
  | some api_obj => merge_meta (some local_buf) (some api_obj)

/-- Modelled from the spec: the generic keyed storage primitive
(flb_hash, not part of this source file).  §4.2/§6 of the spec give its
contract: get(key) returns the entry previously inserted for the key or
a miss, put(key, bytes) copies the bytes and returns a stable id, and
get-by-id returns the inserted copy.  The store is an association list
in insertion order; keys are `Option String` because the resolver passes
meta->cache_key, which may be NULL. -/
abbrev Cache := List (Option String × MergedBuf)

/-- Modelled from the spec: flb_hash_get, first matching entry for the
key or a miss (-1 in C, `none` here). -/
def flb_hash_get : Cache → Option String → Option MergedBuf
  | [], _ => none
  | e :: rest, k => if e.1 = k then some e.2 else flb_hash_get rest k

/-- Modelled from the spec: flb_hash_add copies the value into the store
and returns its non-negative id. -/
def flb_hash_add (c : Cache) (k : Option String) (v : MergedBuf) : Cache × Int :=
  (c ++ [(k, v)], Int.ofNat c.length)

/-- Modelled from the spec: flb_hash_get_by_id returns the stored copy
for an id previously handed out by flb_hash_add. -/
def flb_hash_get_by_id (c : Cache) (id : Int) : Option MergedBuf :=
  (c.get? id.toNat).map Prod.snd

/-- The external inputs of one flb_kube_meta_get call: the regex outcome
for the tag and the transport outcome should a fetch be issued. -/
structure ResolveEnv where
  regexResult : Option (List (String × String))
  api : ApiEnv

/-- The observable outcome of flb_kube_meta_get: its integer return code,
the out_buf/out_size out-parameter (`none` = left unset by the call),
the number of times get_api_server_info was invoked, and the cache state
after the call. -/
structure GetResult where
  ret : Int
  out : Option MergedBuf
  fetches : Nat
  cache : Cache

/-- Embedding of flb_kube_meta_get (kube_meta.c:565-625).  Faithful to
the source: the only -1 return is the tag_to_meta failure; every later
failure (fetch, merge, hash insertion) jumps to `out` and the function
returns 0 with the out-parameters never assigned (`out := none`). -/
def flb_kube_meta_get (env : ResolveEnv) (cache : Cache) : GetResult :=
  match tag_to_meta env.regexResult with
  | none => { ret := -1, out := none, fetches := 0, cache := cache }
  | some (meta, local_buf) =>
    match flb_hash_get cache meta.cache_key with
    | none =>
      match get_and_merge_meta env.api (localObj local_buf) with
      | none => { ret := 0, out := none, fetches := 1, cache := cache }
      | some merged =>
        let added := flb_hash_add cache meta.cache_key merged
        if added.2 ≥ 0 then
          { ret := 0, out := flb_hash_get_by_id added.1 added.2,
            fetches := 1, cache := added.1 }
        else
          { ret := 0, out := none, fetches := 1, cache := cache }
    | some hash_buf =>
      { ret := 0, out := some hash_buf, fetches := 0, cache := cache }

/-! Specification-side vocabulary: plain list functions used to *state*
properties about the embedding (first/last occurrence in an ordered map,
occurrence counts, presence counts).  These are not translations of the
source; they are the language the spec speaks. -/

/-- Number of entries of an ordered map whose key equals `key`. -/
def cnt (key : String) : List (String × MsgObj) → Nat
  | [] => 0
  | e :: t => (if e.1 = key then 1 else 0) + cnt key t

/-- First entry with the given key, together with its position. -/
def firstEntry (key : String) : List (String × MsgObj) → Option (Nat × MsgObj)
  | [] => none
  | e :: t =>
    if e.1 = key then some (0, e.2)
    else (firstEntry key t).map (fun p => (p.1 + 1, p.2))

/-- Last entry with the given key, together with its position. -/
def lastEntry (key : String) : List (String × MsgObj) → Option (Nat × MsgObj)
  | [] => none
  | e :: t =>
    match lastEntry key t with
    | some p => some (p.1 + 1, p.2)
    | none => if e.1 = key then some (0, e.2) else none

/-- Value of the first entry with the given key. -/
def firstVal (key : String) (ms : List (String × MsgObj)) : Option MsgObj :=
  (firstEntry key ms).map Prod.snd

/-- Zero or one output entries from an optional value under a fixed key. -/
def optPair (key : String) : Option MsgObj → List (String × MsgObj)
  | some v => [(key, v)]
  | none => []

/-- How many of the three optional metadata members are present. -/
def kPresent (ms : List (String × MsgObj)) : Nat :=
  (if "uid" ∈ ms.map Prod.fst then 1 else 0)
    + (if "labels" ∈ ms.map Prod.fst then 1 else 0)
    + (if "annotations" ∈ ms.map Prod.fst then 1 else 0)

/-- Combination of an already-recorded scan index with a located first
occurrence at base offset `i` (used to state what the scan loop
computes). -/
def oidx (old : Option Nat) (f : Option (Nat × MsgObj)) (i : Nat) : Option Nat :=
  match old with
  | some j => some j
  | none =>
    match f with
    | some p => some (i + p.1)
    | none => none

/-- Contribution of one key to the scanned map_size increment. -/
def fcount (old : Option Nat) (f : Option (Nat × MsgObj)) : Nat :=
  match old with
  | some _ => 0
  | none => match f with | some _ => 1 | none => 0

/-- Left-biased choice on options (used to state what cb_results folds
compute). -/
def oor : Option String → Option String → Option String
  | some x, _ => some x
  | none, y => y

/-- Value of the first pair with the given name in an ordered list of
regex results. -/
def firstValS (key : String) : List (String × String) → Option String
  | [] => none
  | e :: t => if e.1 = key then some e.2 else firstValS key t

/-! Basic lemmas about the spec-side vocabulary. -/

theorem oor_none_right (o : Option String) : oor o none = o := by
  cases o <;> rfl

theorem oidx_none_right (o : Option Nat) (i : Nat) : oidx o none i = o := by
  cases o <;> rfl

theorem oidx_some_left (j : Nat) (f : Option (Nat × MsgObj)) (i : Nat) :
    oidx (some j) f i = some j := rfl

theorem fcount_none_right (o : Option Nat) : fcount o none = 0 := by
  cases o <;> rfl

theorem fcount_some_left (j : Nat) (f : Option (Nat × MsgObj)) :
    fcount (some j) f = 0 := rfl

theorem fcount_none_left (f : Option (Nat × MsgObj)) :
    fcount none f = if f.isSome then 1 else 0 := by
  cases f <;> rfl

theorem oidx_shift (o : Option Nat) (f : Option (Nat × MsgObj)) (i : Nat) :
    oidx o (f.map (fun p => (p.1 + 1, p.2))) i = oidx o f (i + 1) := by
  cases o with
  | some j => rfl
  | none =>
    cases f with
    | none => rfl
    | some p =>
      simp only [Option.map_some', oidx, Option.some.injEq]
      omega

theorem fcount_shift (o : Option Nat) (f : Option (Nat × MsgObj)) :
    fcount o (f.map (fun p => (p.1 + 1, p.2))) = fcount o f := by
  cases o <;> cases f <;> rfl

theorem firstEntry_get (key : String) :
    ∀ (ms : List (String × MsgObj)) (j : Nat) (v : MsgObj),
    firstEntry key ms = some (j, v) → ms.get? j = some (key, v) := by
  intro ms
  induction ms with
  | nil => intro j v h; simp [firstEntry] at h
  | cons e t ih =>
    obtain ⟨k0, v0⟩ := e
    intro j v h
    by_cases hk : k0 = key
    · subst hk
      simp [firstEntry] at h
      obtain ⟨hj, hv⟩ := h
      subst hj; subst hv
      rfl
    · simp [firstEntry, hk] at h
      obtain ⟨a, hfe, hj⟩ := h
      subst hj
      simpa using ih a v hfe

theorem lastEntry_get (key : String) :
    ∀ (ms : List (String × MsgObj)) (j : Nat) (v : MsgObj),
    lastEntry key ms = some (j, v) → ms.get? j = some (key, v) := by
  intro ms
  induction ms with
  | nil => intro j v h; simp [lastEntry] at h
  | cons e t ih =>
    obtain ⟨k0, v0⟩ := e
    intro j v h
    simp only [lastEntry] at h
    cases hle : lastEntry key t with
    | some p =>
      rw [hle] at h
      simp only [Option.some.injEq, Prod.mk.injEq] at h
      obtain ⟨hj, hv⟩ := h
      subst hj; subst hv
      simpa using ih p.1 p.2 hle
    | none =>
      rw [hle] at h
      by_cases hk : k0 = key
      · subst hk
        simp at h
        obtain ⟨hj, hv⟩ := h
        subst hj; subst hv
        rfl
      · simp [if_neg hk] at h

theorem firstEntry_isSome_iff (key : String) :
    ∀ (ms : List (String × MsgObj)),
    (firstEntry key ms).isSome = true ↔ key ∈ ms.map Prod.fst := by
  intro ms
  induction ms with
  | nil => simp [firstEntry]
  | cons e t ih =>
    obtain ⟨k0, v0⟩ := e
    by_cases hk : k0 = key
    · subst hk; simp [firstEntry]
    · have hk' : ¬ key = k0 := fun hh => hk hh.symm
      simp [firstEntry, hk, hk', ih]

theorem find_metadata_eq_none :
    ∀ (as : List (String × MsgObj)),
    "metadata" ∉ as.map Prod.fst → find_metadata as = none := by
  intro as
  induction as with
  | nil => intro _; rfl
  | cons e t ih =>
    obtain ⟨k0, v0⟩ := e
    intro h
    have h1 : ¬ k0 = "metadata" := by
      intro hh; exact h (by simp [hh])
    have h2 : "metadata" ∉ t.map Prod.fst := by
      intro hh; exact h (by simp [hh])
    simp only [find_metadata, if_neg h1]
    exact ih h2

theorem flb_hash_get_append (v : MergedBuf) :
    ∀ (c : Cache) (k : Option String),
    flb_hash_get c k = none → flb_hash_get (c ++ [(k, v)]) k = some v := by
  intro c
  induction c with
  | nil => intro k _; simp [flb_hash_get]
  | cons e t ih =>
    intro k h
    simp only [flb_hash_get] at h
    by_cases he : e.1 = k
    · rw [if_pos he] at h; exact absurd h (by simp)
    · rw [if_neg he] at h
      simpa [flb_hash_get, if_neg he] using ih k h

theorem flb_hash_get_by_id_append (v : MergedBuf) :
    ∀ (c : Cache) (k : Option String),
    flb_hash_get_by_id (c ++ [(k, v)]) (Int.ofNat c.length) = some v := by
  intro c
  induction c with
  | nil => intro k; rfl
  | cons e t ih =>
    intro k
    have h := ih k
    simp only [flb_hash_get_by_id, Int.toNat_ofNat] at h ⊢
    simp only [List.cons_append, List.length_cons, List.get?_cons_succ]
    exact h

theorem oidx_none_some (p : Nat × MsgObj) (i : Nat) :
    oidx none (some p) i = some (i + p.1) := rfl

theorem fcount_none_some (p : Nat × MsgObj) : fcount none (some p) = 1 := rfl

theorem meta_scan_nodup :
    ∀ (ms : List (String × MsgObj)) (i : Nat) (st : ScanSt),
    (st.have_uid.isSome = true → cnt "uid" ms = 0) →
    (st.have_labels.isSome = true → cnt "labels" ms = 0) →
    (st.have_annotations.isSome = true → cnt "annotations" ms = 0) →
    cnt "uid" ms ≤ 1 → cnt "labels" ms ≤ 1 → cnt "annotations" ms ≤ 1 →
    meta_scan ms i st =
      { have_uid := oidx st.have_uid (firstEntry "uid" ms) i,
        have_labels := oidx st.have_labels (firstEntry "labels" ms) i,
        have_annotations := oidx st.have_annotations (firstEntry "annotations" ms) i,
        map_size := st.map_size + fcount st.have_uid (firstEntry "uid" ms)
          + fcount st.have_labels (firstEntry "labels" ms)
          + fcount st.have_annotations (firstEntry "annotations" ms) } := by
  intro ms
  induction ms with
  | nil =>
    intro i st _ _ _ _ _ _
    simp [meta_scan, firstEntry, oidx_none_right, fcount_none_right]
  | cons e t ih =>
    obtain ⟨k0, v0⟩ := e
    intro i st h1 h2 h3 c1 c2 c3
    obtain ⟨shu, shl, sha, ssz⟩ := st
    simp only at h1 h2 h3
    by_cases hu : k0 = "uid"
    · subst hu
      have hstu : shu = none := by
        cases hsu : shu with
        | none => rfl
        | some j =>
          exfalso
          have hc := h1 (by simp [hsu])
          simp [cnt] at hc
      subst hstu
      have hct : cnt "uid" t = 0 := by
        simp [cnt] at c1; omega
      have hstep : scanStep i "uid" ⟨none, shl, sha, ssz⟩
          = ⟨some i, shl, sha, ssz + 1⟩ := by
        simp [scanStep]
      by_cases hb : scanBreak (⟨some i, shl, sha, ssz + 1⟩ : ScanSt) = true
      · simp [scanBreak] at hb
        obtain ⟨jl, hsl⟩ := Option.isSome_iff_exists.mp hb.1
        obtain ⟨ja, hsa⟩ := Option.isSome_iff_exists.mp hb.2
        subst hsl; subst hsa
        simp [meta_scan, hstep, scanBreak, firstEntry, oidx, fcount]
      · rw [show meta_scan (("uid", v0) :: t) i ⟨none, shl, sha, ssz⟩
            = meta_scan t (i + 1) ⟨some i, shl, sha, ssz + 1⟩ from by
          simp only [meta_scan, hstep]; rw [if_neg hb]]
        rw [ih (i + 1) ⟨some i, shl, sha, ssz + 1⟩
          (by intro _; exact hct)
          (by intro hs; have := h2 hs; simpa [cnt] using this)
          (by intro hs; have := h3 hs; simpa [cnt] using this)
          (by simp [hct])
          (by simpa [cnt] using c2)
          (by simpa [cnt] using c3)]
        simp [firstEntry, oidx_shift, fcount_shift, oidx_some_left,
          fcount_some_left, oidx_none_some, fcount_none_some]
    · by_cases hl : k0 = "labels"
      · subst hl
        have hstl : shl = none := by
          cases hsl : shl with
          | none => rfl
          | some j =>
            exfalso
            have hc := h2 (by simp [hsl])
            simp [cnt] at hc
        subst hstl
        have hct : cnt "labels" t = 0 := by
          simp [cnt] at c2; omega
        have hstep : scanStep i "labels" ⟨shu, none, sha, ssz⟩
            = ⟨shu, some i, sha, ssz + 1⟩ := by
          simp [scanStep]
        by_cases hb : scanBreak (⟨shu, some i, sha, ssz + 1⟩ : ScanSt) = true
        · simp [scanBreak] at hb
          obtain ⟨ju, hsu⟩ := Option.isSome_iff_exists.mp hb.1
          obtain ⟨ja, hsa⟩ := Option.isSome_iff_exists.mp hb.2
          subst hsu; subst hsa
          simp [meta_scan, hstep, scanBreak, firstEntry, oidx, fcount]
        · rw [show meta_scan (("labels", v0) :: t) i ⟨shu, none, sha, ssz⟩
              = meta_scan t (i + 1) ⟨shu, some i, sha, ssz + 1⟩ from by
            simp only [meta_scan, hstep]; rw [if_neg hb]]
          rw [ih (i + 1) ⟨shu, some i, sha, ssz + 1⟩
            (by intro hs; have := h1 hs; simpa [cnt] using this)
            (by intro _; exact hct)
            (by intro hs; have := h3 hs; simpa [cnt] using this)
            (by simpa [cnt] using c1)
            (by simp [hct])
            (by simpa [cnt] using c3)]
          simp [firstEntry, oidx_shift, fcount_shift, oidx_some_left,
            fcount_some_left, oidx_none_some, fcount_none_some]
          omega
      · by_cases ha : k0 = "annotations"
        · subst ha
          have hsta : sha = none := by
            cases hsa : sha with
            | none => rfl
            | some j =>
              exfalso
              have hc := h3 (by simp [hsa])
              simp [cnt] at hc
          subst hsta
          have hct : cnt "annotations" t = 0 := by
            simp [cnt] at c3; omega
          have hstep : scanStep i "annotations" ⟨shu, shl, none, ssz⟩
              = ⟨shu, shl, some i, ssz + 1⟩ := by
            simp [scanStep]
          by_cases hb : scanBreak (⟨shu, shl, some i, ssz + 1⟩ : ScanSt) = true
          · simp [scanBreak] at hb
            obtain ⟨ju, hsu⟩ := Option.isSome_iff_exists.mp hb.1
            obtain ⟨jl, hsl⟩ := Option.isSome_iff_exists.mp hb.2
            subst hsu; subst hsl
            simp [meta_scan, hstep, scanBreak, firstEntry, oidx, fcount]
          · rw [show meta_scan (("annotations", v0) :: t) i ⟨shu, shl, none, ssz⟩
                = meta_scan t (i + 1) ⟨shu, shl, some i, ssz + 1⟩ from by
              simp only [meta_scan, hstep]; rw [if_neg hb]]
            rw [ih (i + 1) ⟨shu, shl, some i, ssz + 1⟩
              (by intro hs; have := h1 hs; simpa [cnt] using this)
              (by intro hs; have := h2 hs; simpa [cnt] using this)
              (by intro _; exact hct)
              (by simpa [cnt] using c1)
              (by simpa [cnt] using c2)
              (by simp [hct])]
            simp [firstEntry, oidx_shift, fcount_shift, oidx_some_left,
              fcount_some_left, oidx_none_some, fcount_none_some]
            omega
        · have hstep : scanStep i k0 ⟨shu, shl, sha, ssz⟩
              = ⟨shu, shl, sha, ssz⟩ := by
            simp [scanStep, hu, hl, ha]
          by_cases hb : scanBreak (⟨shu, shl, sha, ssz⟩ : ScanSt) = true
          · simp [scanBreak] at hb
            obtain ⟨ju, hsu⟩ := Option.isSome_iff_exists.mp hb.1.1
            obtain ⟨jl, hsl⟩ := Option.isSome_iff_exists.mp hb.1.2
            obtain ⟨ja, hsa⟩ := Option.isSome_iff_exists.mp hb.2
            subst hsu; subst hsl; subst hsa
            simp [meta_scan, hstep, scanBreak, oidx, fcount]
          · rw [show meta_scan ((k0, v0) :: t) i ⟨shu, shl, sha, ssz⟩
                = meta_scan t (i + 1) ⟨shu, shl, sha, ssz⟩ from by
              simp only [meta_scan, hstep]; rw [if_neg hb]]
            rw [ih (i + 1) ⟨shu, shl, sha, ssz⟩
              (by intro hs; have := h1 hs; simpa [cnt, hu] using this)
              (by intro hs; have := h2 hs; simpa [cnt, hl] using this)
              (by intro hs; have := h3 hs; simpa [cnt, ha] using this)
              (by simpa [cnt, hu] using c1)
              (by simpa [cnt, hl] using c2)
              (by simpa [cnt, ha] using c3)]
            simp [firstEntry, hu, hl, ha, oidx_shift, fcount_shift]

theorem meta_scan_lastwins :
    ∀ (ms : List (String × MsgObj)) (i : Nat) (st : ScanSt),
    st.have_labels = none → st.have_annotations = none →
    cnt "labels" ms = 0 → cnt "annotations" ms = 0 →
    meta_scan ms i st =
      { have_uid := (match lastEntry "uid" ms with
          | some p => some (i + p.1)
          | none => st.have_uid),
        have_labels := none,
        have_annotations := none,
        map_size := st.map_size + cnt "uid" ms } := by
  intro ms
  induction ms with
  | nil =>
    intro i st hl ha _ _
    obtain ⟨shu, shl, sha, ssz⟩ := st
    simp only at hl ha
    subst hl; subst ha
    simp [meta_scan, lastEntry, cnt]
  | cons e t ih =>
    obtain ⟨k0, v0⟩ := e
    intro i st hl ha hc2 hc3
    obtain ⟨shu, shl, sha, ssz⟩ := st
    simp only at hl ha
    subst hl; subst ha
    by_cases hu : k0 = "uid"
    · subst hu
      rw [show meta_scan (("uid", v0) :: t) i ⟨shu, none, none, ssz⟩
          = meta_scan t (i + 1) ⟨some i, none, none, ssz + 1⟩ from by
        simp [meta_scan, scanStep, scanBreak]]
      rw [ih (i + 1) ⟨some i, none, none, ssz + 1⟩ rfl rfl
        (by simpa [cnt] using hc2) (by simpa [cnt] using hc3)]
      cases hle : lastEntry "uid" t with
      | some p => simp [lastEntry, hle, cnt]; omega
      | none => simp [lastEntry, hle, cnt]; omega
    · by_cases hlb : k0 = "labels"
      · exfalso; subst hlb; simp [cnt] at hc2
      · by_cases hab : k0 = "annotations"
        · exfalso; subst hab; simp [cnt] at hc3
        · rw [show meta_scan ((k0, v0) :: t) i ⟨shu, none, none, ssz⟩
              = meta_scan t (i + 1) ⟨shu, none, none, ssz⟩ from by
            simp [meta_scan, scanStep, scanBreak, hu, hlb, hab]]
          rw [ih (i + 1) ⟨shu, none, none, ssz⟩ rfl rfl
            (by simpa [cnt, hlb] using hc2) (by simpa [cnt, hab] using hc3)]
          cases hle : lastEntry "uid" t with
          | some p => simp [lastEntry, hle, cnt, hu]; omega
          | none => simp [lastEntry, hle, cnt, hu]

theorem emitAt_firstEntry_rename (key nk : String) (ms : List (String × MsgObj)) :
    emitAt ms (oidx none (firstEntry key ms) 0) (some nk)
      = optPair nk (firstVal key ms) := by
  cases hfe : firstEntry key ms with
  | none => simp [emitAt, oidx, optPair, firstVal, hfe]
  | some p =>
    have hg := firstEntry_get key ms p.1 p.2 (by rw [hfe])
    rw [List.get?_eq_getElem?] at hg
    simp [emitAt, oidx, optPair, firstVal, hfe, hg]

theorem emitAt_firstEntry_verbatim (key : String) (ms : List (String × MsgObj)) :
    emitAt ms (oidx none (firstEntry key ms) 0) none
      = optPair key (firstVal key ms) := by
  cases hfe : firstEntry key ms with
  | none => simp [emitAt, oidx, optPair, firstVal, hfe]
  | some p =>
    have hg := firstEntry_get key ms p.1 p.2 (by rw [hfe])
    rw [List.get?_eq_getElem?] at hg
    simp [emitAt, oidx, optPair, firstVal, hfe, hg]

theorem merge_meta_nodup (regs as ms : List (String × MsgObj))
    (hf : find_metadata as = some (MsgObj.map ms))
    (d1 : cnt "uid" ms ≤ 1) (d2 : cnt "labels" ms ≤ 1)
    (d3 : cnt "annotations" ms ≤ 1) :
    merge_meta (some (MsgObj.map regs)) (some (MsgObj.map as)) =
      some (regs.length + fcount none (firstEntry "uid" ms)
              + fcount none (firstEntry "labels" ms)
              + fcount none (firstEntry "annotations" ms),
            regs ++ optPair "pod_id" (firstVal "uid" ms)
                 ++ optPair "labels" (firstVal "labels" ms)
                 ++ optPair "annotations" (firstVal "annotations" ms)) := by
  have hscan := meta_scan_nodup ms 0
    ⟨none, none, none, regs.length⟩
    (by simp) (by simp) (by simp) d1 d2 d3
  simp only [merge_meta, viaMap]
  rw [hf]
  simp only [viaMap, hscan]
  rw [emitAt_firstEntry_rename, emitAt_firstEntry_verbatim,
    emitAt_firstEntry_verbatim]

theorem merge_meta_lastwins (regs as ms : List (String × MsgObj))
    (j : Nat) (v : MsgObj)
    (hf : find_metadata as = some (MsgObj.map ms))
    (hc2 : cnt "labels" ms = 0) (hc3 : cnt "annotations" ms = 0)
    (hle : lastEntry "uid" ms = some (j, v)) :
    merge_meta (some (MsgObj.map regs)) (some (MsgObj.map as)) =
      some (regs.length + cnt "uid" ms, regs ++ [("pod_id", v)]) := by
  have hscan := meta_scan_lastwins ms 0
    ⟨none, none, none, regs.length⟩ rfl rfl hc2 hc3
  have hg := lastEntry_get "uid" ms j v hle
  rw [List.get?_eq_getElem?] at hg
  simp only [merge_meta, viaMap]
  rw [hf]
  simp only [viaMap, hscan, hle]
  simp [emitAt, hg]

theorem optPair_length (key : String) (o : Option MsgObj) :
    (optPair key o).length = if o.isSome = true then 1 else 0 := by
  cases o <;> rfl

theorem fcount_kPresent (ms : List (String × MsgObj)) :
    fcount none (firstEntry "uid" ms) + fcount none (firstEntry "labels" ms)
      + fcount none (firstEntry "annotations" ms) = kPresent ms := by
  have h1 : ∀ key, (if (firstEntry key ms).isSome = true then 1 else 0)
      = (if key ∈ ms.map Prod.fst then 1 else 0) := by
    intro key
    by_cases h : key ∈ ms.map Prod.fst
    · rw [if_pos h, if_pos ((firstEntry_isSome_iff key ms).mpr h)]
    · rw [if_neg h, if_neg (fun hh => h ((firstEntry_isSome_iff key ms).mp hh))]
  simp [fcount_none_left, kPresent, h1]

theorem cb_podname (m : KubeMeta) (name value : String) :
    (cb_results m name value).podname
      = if m.podname = none ∧ name = "pod_name" then some value
        else m.podname := by
  simp only [cb_results]
  split_ifs <;> simp_all

theorem cb_nspace (m : KubeMeta) (name value : String) :
    (cb_results m name value).nspace
      = if m.nspace = none ∧ name = "namespace_name" then some value
        else m.nspace := by
  simp only [cb_results]
  split_ifs <;> simp_all

theorem cb_packed (m : KubeMeta) (name value : String) :
    (cb_results m name value).packed = m.packed ++ [(name, value)] := by
  simp only [cb_results]
  split_ifs <;> rfl

theorem cb_cache_key (m : KubeMeta) (name value : String) :
    (cb_results m name value).cache_key = m.cache_key := by
  simp only [cb_results]
  split_ifs <;> rfl

theorem cb_fold :
    ∀ (rr : List (String × String)) (m : KubeMeta),
    (rr.foldl (fun a p => cb_results a p.1 p.2) m).podname
        = oor m.podname (firstValS "pod_name" rr) ∧
    (rr.foldl (fun a p => cb_results a p.1 p.2) m).nspace
        = oor m.nspace (firstValS "namespace_name" rr) ∧
    (rr.foldl (fun a p => cb_results a p.1 p.2) m).packed = m.packed ++ rr ∧
    (rr.foldl (fun a p => cb_results a p.1 p.2) m).cache_key = m.cache_key := by
  intro rr
  induction rr with
  | nil => intro m; simp [firstValS, oor_none_right]
  | cons e t ih =>
    obtain ⟨name, value⟩ := e
    intro m
    rw [show (((name, value) :: t).foldl (fun a p => cb_results a p.1 p.2) m)
        = t.foldl (fun a p => cb_results a p.1 p.2) (cb_results m name value)
      from rfl]
    obtain ⟨ip, inn, ipk, ick⟩ := ih (cb_results m name value)
    refine ⟨?_, ?_, ?_, ?_⟩
    · rw [ip, cb_podname]
      by_cases hn : name = "pod_name"
      · subst hn
        by_cases hp : m.podname = none
        · simp [hp, firstValS, oor]
        · obtain ⟨x, hx⟩ := Option.ne_none_iff_exists'.mp hp
          simp [hx, firstValS, oor]
      · simp [hn, firstValS, oor]
    · rw [inn, cb_nspace]
      by_cases hn : name = "namespace_name"
      · subst hn
        by_cases hp : m.nspace = none
        · simp [hp, firstValS, oor]
        · obtain ⟨x, hx⟩ := Option.ne_none_iff_exists'.mp hp
          simp [hx, firstValS, oor]
      · simp [hn, firstValS, oor]
    · rw [ipk, cb_packed]
      simp
    · rw [ick, cb_cache_key]

theorem tag_to_meta_some (rr : List (String × String)) :
    tag_to_meta (some rr) = some
      ({ podname := firstValS "pod_name" rr,
         nspace := firstValS "namespace_name" rr,
         packed := rr,
         cache_key :=
           match firstValS "pod_name" rr, firstValS "namespace_name" rr with
           | some p, some ns => some (ns ++ ":" ++ p)
           | _, _ => none }, rr) := by
  obtain ⟨hp, hn, hpk, hck⟩ := cb_fold rr metaZero
  have hm : rr.foldl (fun a p => cb_results a p.1 p.2) metaZero
      = ⟨firstValS "pod_name" rr, firstValS "namespace_name" rr, rr, none⟩ := by
    have he : rr.foldl (fun a p => cb_results a p.1 p.2) metaZero
        = (⟨(rr.foldl (fun a p => cb_results a p.1 p.2) metaZero).podname,
            (rr.foldl (fun a p => cb_results a p.1 p.2) metaZero).nspace,
            (rr.foldl (fun a p => cb_results a p.1 p.2) metaZero).packed,
            (rr.foldl (fun a p => cb_results a p.1 p.2) metaZero).cache_key⟩
          : KubeMeta) := rfl
    rw [he, hp, hn, hpk, hck]
    simp [metaZero, oor]
  simp only [tag_to_meta]
  rw [hm]
  cases hfp : firstValS "pod_name" rr <;>
    cases hfn : firstValS "namespace_name" rr <;> simp

theorem cacheKeyOf_eq (rr : List (String × String)) :
    cacheKeyOf rr =
      match firstValS "pod_name" rr, firstValS "namespace_name" rr with
      | some p, some ns => some (ns ++ ":" ++ p)
      | _, _ => none := by
  simp [cacheKeyOf, tag_to_meta_some]

/-- Claim C1: the claim states that any failure after a successful tag
parse (fetch, merge, or cache insertion) is signalled as an error and the
output buffer is never left unset.  The code violates this: evaluated at
a tag that parses (pod myapp, namespace default) with an empty cache and
an API response that lacks a `metadata` key, flb_kube_meta_get returns 0
(success) while the out-buffer is never assigned. -/
theorem C1_error_signaling_bug :
    (flb_kube_meta_get
        { regexResult := some [("namespace_name", "default"), ("pod_name", "myapp")],
          api := apiEnvOk [("kind", MsgObj.str "Pod")] } []).ret = 0
    ∧ (flb_kube_meta_get
        { regexResult := some [("namespace_name", "default"), ("pod_name", "myapp")],
          api := apiEnvOk [("kind", MsgObj.str "Pod")] } []).out = none :=
  ⟨rfl, rfl⟩

/-- Claim C8 (counterexample): the claim "get_api_server_info succeeds iff
the transport call returns success and the HTTP status is exactly 200" is
false: with transport success (http_ret = 0) and status 200 but a payload
whose JSON conversion fails (pack = none), the function still fails. -/
theorem C8_fetch_success_counterexample :
    ¬ (((get_api_server_info (ApiEnv.mk true true 50 0 200 none)).isSome = true)
        ↔ ((ApiEnv.mk true true 50 0 200 none).http_ret = 0
            ∧ (ApiEnv.mk true true 50 0 200 none).status = 200)) := by
  decide

/-- Claim C8 (amended): the fetch succeeds iff the upstream context is
present, a connection is obtained, the URI composes, the transport call
returns success, the HTTP status is exactly 200, AND the JSON body
converts successfully; every other outcome is a failure, and the
embedding consumes a single transport outcome (no retry). -/
theorem C8_fetch_success_amended (env : ApiEnv) :
    (get_api_server_info env).isSome = true
      ↔ (env.upstream = true ∧ env.conn_ok = true ∧ env.uri_ret ≠ -1
          ∧ env.http_ret = 0 ∧ env.status = 200 ∧ env.pack.isSome = true) := by
  obtain ⟨u, co, ur, hr, st, pk⟩ := env
  simp only [get_api_server_info]
  split_ifs with hh1 hh2 hh3 hh4
  · simp [hh1]
  · simp [hh2]
  · simp [hh3]
  · rcases hh4 with hh | hh <;> simp_all
  · push_neg at hh4
    simp_all [Bool.not_eq_false]

/-- Claim C9: merge_meta checks its precondition on the local buffer: it
fails when the regex-derived buffer does not unpack, and when it unpacks
to a non-map value (any of the non-map object kinds). -/
theorem C9_local_precondition (api : Option MsgObj) (s : String) :
    merge_meta none api = none
    ∧ merge_meta (some (MsgObj.str s)) api = none
    ∧ merge_meta (some MsgObj.other) api = none :=
  ⟨rfl, rfl, rfl⟩

/-- Claim C10: for a tag whose regex reports duplicate `pod_name` (or
`namespace_name`) results, only the first reported value lands in the
dedicated cache-key fields, while the packed local record receives every
reported pair, duplicates included, in order. -/
theorem C10_first_match_capture (rr : List (String × String)) :
    ∃ m : KubeMeta, tag_to_meta (some rr) = some (m, rr)
      ∧ m.podname = firstValS "pod_name" rr
      ∧ m.nspace = firstValS "namespace_name" rr
      ∧ m.packed = rr :=
  ⟨_, tag_to_meta_some rr, rfl, rfl, rfl⟩

/-- Claim C6: when the regex results carry both reserved groups, the
cache key is exactly namespace ++ ":" ++ podname (with the documented
length); when either group is missing the cache key is absent and its
length is 0. -/
theorem C6_cache_key (rr : List (String × String)) (p ns : String) :
    (firstValS "pod_name" rr = some p →
     firstValS "namespace_name" rr = some ns →
        cacheKeyOf rr = some (ns ++ ":" ++ p)
        ∧ cacheKeyLenOf rr = ns.length + 1 + p.length)
    ∧ ((firstValS "pod_name" rr = none ∨ firstValS "namespace_name" rr = none) →
        cacheKeyOf rr = none ∧ cacheKeyLenOf rr = 0) := by
  constructor
  · intro hp hn
    have hk : cacheKeyOf rr = some (ns ++ ":" ++ p) := by
      rw [cacheKeyOf_eq, hp, hn]
    refine ⟨hk, ?_⟩
    have hcolon : (":" : String).length = 1 := rfl
    simp [cacheKeyLenOf, hk, String.length_append, hcolon]
  · intro hor
    have hk : cacheKeyOf rr = none := by
      rcases hor with h | h
      · cases hn2 : firstValS "namespace_name" rr <;>
          simp [cacheKeyOf_eq, h, hn2]
      · cases hp2 : firstValS "pod_name" rr <;>
          simp [cacheKeyOf_eq, h, hp2]
    exact ⟨hk, by simp [cacheKeyLenOf, hk]⟩

/-- Witness for C6, on the spec example: namespace `default` and pod
`myapp-abc123` give cache key `default:myapp-abc123`. -/
theorem C6_cache_key_witness :
    firstValS "pod_name" [("namespace_name", "default"), ("pod_name", "myapp-abc123")]
        = some "myapp-abc123"
    ∧ firstValS "namespace_name" [("namespace_name", "default"), ("pod_name", "myapp-abc123")]
        = some "default"
    ∧ cacheKeyOf [("namespace_name", "default"), ("pod_name", "myapp-abc123")]
        = some "default:myapp-abc123"
    ∧ cacheKeyLenOf [("namespace_name", "default"), ("pod_name", "myapp-abc123")]
        = "default".length + 1 + "myapp-abc123".length :=
  ⟨by decide, by decide,
   ((C6_cache_key [("namespace_name", "default"), ("pod_name", "myapp-abc123")]
      "myapp-abc123" "default").1 (by decide) (by decide)).1,
   ((C6_cache_key [("namespace_name", "default"), ("pod_name", "myapp-abc123")]
      "myapp-abc123" "default").1 (by decide) (by decide)).2⟩

/-- Claim C2 (counterexample): the claim asserts the declared and actual
field count is n + k even when the metadata object contains duplicate
occurrences of uid/labels/annotations.  With a 1-entry local record and a
metadata object holding `uid` twice (k = 1 distinct member, so n + k = 2)
the declared map size is 3: each duplicate occurrence increments the
declared size again. -/
theorem C2_field_count_counterexample :
    merge_meta (some (MsgObj.map [("container", MsgObj.str "myapp")]))
        (some (MsgObj.map [("metadata",
          MsgObj.map [("uid", MsgObj.str "u1"), ("uid", MsgObj.str "u2")])]))
      = some (3, [("container", MsgObj.str "myapp"), ("pod_id", MsgObj.str "u2")])
    ∧ (3 : Nat) ≠ 1 + 1 :=
  ⟨rfl, by decide⟩

/-- Claim C2 (amended): when each of uid/labels/annotations occurs at
most once in the metadata object, the declared and the actual field
count both equal n + k; with duplicate occurrences the declared size is
incremented once per scanned occurrence and can exceed n + k, while the
actual emitted entry count stays n + k. -/
theorem C2_field_count_amended (regs as ms : List (String × MsgObj))
    (hf : find_metadata as = some (MsgObj.map ms))
    (d1 : cnt "uid" ms ≤ 1) (d2 : cnt "labels" ms ≤ 1)
    (d3 : cnt "annotations" ms ≤ 1) :
    ∃ out, merge_meta (some (MsgObj.map regs)) (some (MsgObj.map as))
        = some (regs.length + kPresent ms, out)
      ∧ out.length = regs.length + kPresent ms := by
  have hsum := fcount_kPresent ms
  have hlen : ∀ k1 k2 : String,
      (optPair k1 (firstVal k2 ms)).length = fcount none (firstEntry k2 ms) := by
    intro k1 k2
    cases h : firstEntry k2 ms <;> simp [optPair, firstVal, h, fcount]
  refine ⟨regs ++ optPair "pod_id" (firstVal "uid" ms)
      ++ optPair "labels" (firstVal "labels" ms)
      ++ optPair "annotations" (firstVal "annotations" ms), ?_, ?_⟩
  · rw [merge_meta_nodup regs as ms hf d1 d2 d3,
      show regs.length + fcount none (firstEntry "uid" ms)
          + fcount none (firstEntry "labels" ms)
          + fcount none (firstEntry "annotations" ms)
        = regs.length + kPresent ms from by omega]
  · simp only [List.length_append, hlen]
    omega

/-- Witness for C2 (amended), at a local record with one entry and a
metadata object containing distinct uid and labels members. -/
theorem C2_field_count_witness :
    find_metadata [("kind", MsgObj.str "Pod"),
        ("metadata", MsgObj.map [("uid", MsgObj.str "u1"),
          ("labels", MsgObj.map [("app", MsgObj.str "x")])])]
      = some (MsgObj.map [("uid", MsgObj.str "u1"),
          ("labels", MsgObj.map [("app", MsgObj.str "x")])])
    ∧ cnt "uid" [("uid", MsgObj.str "u1"),
          ("labels", MsgObj.map [("app", MsgObj.str "x")])] ≤ 1
    ∧ cnt "labels" [("uid", MsgObj.str "u1"),
          ("labels", MsgObj.map [("app", MsgObj.str "x")])] ≤ 1
    ∧ cnt "annotations" [("uid", MsgObj.str "u1"),
          ("labels", MsgObj.map [("app", MsgObj.str "x")])] ≤ 1
    ∧ ∃ out, merge_meta (some (MsgObj.map [("container", MsgObj.str "myapp")]))
          (some (MsgObj.map [("kind", MsgObj.str "Pod"),
            ("metadata", MsgObj.map [("uid", MsgObj.str "u1"),
              ("labels", MsgObj.map [("app", MsgObj.str "x")])])]))
        = some (1 + 2, out)
      ∧ out.length = 1 + 2 :=
  ⟨rfl, by decide, by decide, by decide,
   C2_field_count_amended [("container", MsgObj.str "myapp")]
     [("kind", MsgObj.str "Pod"),
      ("metadata", MsgObj.map [("uid", MsgObj.str "u1"),
        ("labels", MsgObj.map [("app", MsgObj.str "x")])])]
     [("uid", MsgObj.str "u1"), ("labels", MsgObj.map [("app", MsgObj.str "x")])]
     rfl (by decide) (by decide) (by decide)⟩

/-- Claim C3 (counterexample): the claim asserts the first occurrence of
a duplicated `uid` wins.  With metadata `[uid = "first", uid = "second"]`
the emitted pod_id value is "second": each occurrence overwrites the
stored index, so the last occurrence wins. -/
theorem C3_first_occurrence_counterexample :
    merge_meta (some (MsgObj.map [("stream", MsgObj.str "stdout")]))
        (some (MsgObj.map [("metadata",
          MsgObj.map [("uid", MsgObj.str "first"), ("uid", MsgObj.str "second")])]))
      = some (3, [("stream", MsgObj.str "stdout"), ("pod_id", MsgObj.str "second")])
    ∧ MsgObj.str "second" ≠ MsgObj.str "first" :=
  ⟨rfl, fun h => by simp at h⟩

/-- Claim C3 (amended): when a key among uid/labels/annotations occurs
more than once in the metadata object, the value taken is that of the
LAST occurrence the scan visits, not the first (the scan stops early
only once all three keys have been seen).  Stated for metadata objects
with no labels/annotations entries, where the scan necessarily visits
the whole object: the emitted pod_id value is the last uid value. -/
theorem C3_last_occurrence_amended (regs as ms : List (String × MsgObj))
    (j : Nat) (v : MsgObj)
    (hf : find_metadata as = some (MsgObj.map ms))
    (hc2 : cnt "labels" ms = 0) (hc3 : cnt "annotations" ms = 0)
    (hle : lastEntry "uid" ms = some (j, v)) :
    merge_meta (some (MsgObj.map regs)) (some (MsgObj.map as))
      = some (regs.length + cnt "uid" ms, regs ++ [("pod_id", v)]) :=
  merge_meta_lastwins regs as ms j v hf hc2 hc3 hle

/-- Witness for C3 (amended): metadata with uid twice separated by an
unrelated key; the last uid value "b" is emitted as pod_id. -/
theorem C3_last_occurrence_witness :
    find_metadata [("metadata", MsgObj.map [("uid", MsgObj.str "a"),
        ("x", MsgObj.str "y"), ("uid", MsgObj.str "b")])]
      = some (MsgObj.map [("uid", MsgObj.str "a"),
        ("x", MsgObj.str "y"), ("uid", MsgObj.str "b")])
    ∧ cnt "labels" [("uid", MsgObj.str "a"),
        ("x", MsgObj.str "y"), ("uid", MsgObj.str "b")] = 0
    ∧ cnt "annotations" [("uid", MsgObj.str "a"),
        ("x", MsgObj.str "y"), ("uid", MsgObj.str "b")] = 0
    ∧ lastEntry "uid" [("uid", MsgObj.str "a"),
        ("x", MsgObj.str "y"), ("uid", MsgObj.str "b")] = some (2, MsgObj.str "b")
    ∧ merge_meta (some (MsgObj.map [("container", MsgObj.str "c")]))
        (some (MsgObj.map [("metadata", MsgObj.map [("uid", MsgObj.str "a"),
          ("x", MsgObj.str "y"), ("uid", MsgObj.str "b")])]))
      = some (3, [("container", MsgObj.str "c"), ("pod_id", MsgObj.str "b")]) :=
  ⟨rfl, rfl, rfl, rfl,
   C3_last_occurrence_amended [("container", MsgObj.str "c")]
     [("metadata", MsgObj.map [("uid", MsgObj.str "a"),
        ("x", MsgObj.str "y"), ("uid", MsgObj.str "b")])]
     [("uid", MsgObj.str "a"), ("x", MsgObj.str "y"), ("uid", MsgObj.str "b")]
     2 (MsgObj.str "b") rfl rfl rfl rfl⟩

/-- Claim C5: on successful merge the output is exactly the local
entries verbatim and in order, then (pod_id, uid value) if uid is
present, then the labels entry verbatim if present, then the
annotations entry verbatim if present, and nothing else.  Stated for
metadata objects where each of the three keys occurs at most once,
which is what makes "uid's value" well defined. -/
theorem C5_merge_layout (regs as ms : List (String × MsgObj))
    (hf : find_metadata as = some (MsgObj.map ms))
    (d1 : cnt "uid" ms ≤ 1) (d2 : cnt "labels" ms ≤ 1)
    (d3 : cnt "annotations" ms ≤ 1) :
    ∃ sz, merge_meta (some (MsgObj.map regs)) (some (MsgObj.map as))
      = some (sz,
          regs ++ optPair "pod_id" (firstVal "uid" ms)
               ++ optPair "labels" (firstVal "labels" ms)
               ++ optPair "annotations" (firstVal "annotations" ms)) :=
  ⟨_, merge_meta_nodup regs as ms hf d1 d2 d3⟩

/-- Witness for C5, on the spec example: response
`{kind: Pod, metadata: {uid: "u1", labels: {app: "x"}}}` merged with
local record `{container: "myapp"}` yields
`{container: "myapp", pod_id: "u1", labels: {app: "x"}}` with no
annotations entry. -/
theorem C5_merge_layout_witness :
    find_metadata [("kind", MsgObj.str "Pod"),
        ("metadata", MsgObj.map [("uid", MsgObj.str "u1"),
          ("labels", MsgObj.map [("app", MsgObj.str "x")])])]
      = some (MsgObj.map [("uid", MsgObj.str "u1"),
          ("labels", MsgObj.map [("app", MsgObj.str "x")])])
    ∧ cnt "uid" [("uid", MsgObj.str "u1"),
          ("labels", MsgObj.map [("app", MsgObj.str "x")])] ≤ 1
    ∧ cnt "labels" [("uid", MsgObj.str "u1"),
          ("labels", MsgObj.map [("app", MsgObj.str "x")])] ≤ 1
    ∧ cnt "annotations" [("uid", MsgObj.str "u1"),
          ("labels", MsgObj.map [("app", MsgObj.str "x")])] ≤ 1
    ∧ ∃ sz, merge_meta (some (MsgObj.map [("container", MsgObj.str "myapp")]))
          (some (MsgObj.map [("kind", MsgObj.str "Pod"),
            ("metadata", MsgObj.map [("uid", MsgObj.str "u1"),
              ("labels", MsgObj.map [("app", MsgObj.str "x")])])]))
        = some (sz, [("container", MsgObj.str "myapp"),
            ("pod_id", MsgObj.str "u1"),
            ("labels", MsgObj.map [("app", MsgObj.str "x")])]) :=
  ⟨rfl, by decide, by decide, by decide,
   C5_merge_layout [("container", MsgObj.str "myapp")]
     [("kind", MsgObj.str "Pod"),
      ("metadata", MsgObj.map [("uid", MsgObj.str "u1"),
        ("labels", MsgObj.map [("app", MsgObj.str "x")])])]
     [("uid", MsgObj.str "u1"), ("labels", MsgObj.map [("app", MsgObj.str "x")])]
     rfl (by decide) (by decide) (by decide)⟩

theorem resolver_metadata_missing (rr : List (String × String))
    (as : List (String × MsgObj))
    (hm : "metadata" ∉ as.map Prod.fst) :
    ∀ c0 : Cache, flb_kube_meta_get ⟨some rr, apiEnvOk as⟩ c0
      = (match flb_hash_get c0 (cacheKeyOf rr) with
         | none => { ret := 0, out := none, fetches := 1, cache := c0 }
         | some hash_buf =>
           { ret := 0, out := some hash_buf, fetches := 0, cache := c0 }) := by
  have hfm := find_metadata_eq_none as hm
  have hmm : merge_meta (some (localObj rr)) (some (MsgObj.map as)) = none := by
    simp [merge_meta, localObj, viaMap, hfm]
  have hget : get_and_merge_meta (apiEnvOk as) (localObj rr) = none := by
    simp [get_and_merge_meta, get_api_server_info, apiEnvOk, hmm]
  intro c0
  simp only [flb_kube_meta_get, tag_to_meta_some]
  rw [← cacheKeyOf_eq]
  cases hbh : flb_hash_get c0 (cacheKeyOf rr) with
  | none => simp [hget]
  | some b => simp

/-- Claim C4: merge is all-or-nothing.  For every API response whose
top-level map lacks a key literally equal to `metadata`, merge_meta
fails and produces no output; in that case the resolver adds no cache
entry (the cache is unchanged), so resolving the same tag again
re-attempts the remote fetch. -/
theorem C4_all_or_nothing (rr : List (String × String))
    (as : List (String × MsgObj)) (c : Cache)
    (hm : "metadata" ∉ as.map Prod.fst) :
    merge_meta (some (localObj rr)) (some (MsgObj.map as)) = none
    ∧ (flb_kube_meta_get ⟨some rr, apiEnvOk as⟩ c).cache = c
    ∧ (flb_hash_get c (cacheKeyOf rr) = none →
        (flb_kube_meta_get ⟨some rr, apiEnvOk as⟩ c).fetches = 1
        ∧ (flb_kube_meta_get ⟨some rr, apiEnvOk as⟩
            ((flb_kube_meta_get ⟨some rr, apiEnvOk as⟩ c).cache)).fetches = 1) := by
  have hres := resolver_metadata_missing rr as hm
  refine ⟨?_, ?_, ?_⟩
  · have hfm := find_metadata_eq_none as hm
    simp [merge_meta, localObj, viaMap, hfm]
  · rw [hres c]
    cases hbh : flb_hash_get c (cacheKeyOf rr) <;> simp [hbh]
  · intro hnone
    constructor
    · rw [hres c, hnone]
    · rw [hres c, hnone]
      rw [hres c, hnone]

/-- Witness for C4: a response `{kind: Pod}` with no metadata key, an
empty cache, and a tag parsing to namespace `default`, pod `myapp`. -/
theorem C4_all_or_nothing_witness :
    "metadata" ∉ ([("kind", MsgObj.str "Pod")].map Prod.fst)
    ∧ (merge_meta (some (localObj [("namespace_name", "default"), ("pod_name", "myapp")]))
          (some (MsgObj.map [("kind", MsgObj.str "Pod")])) = none
      ∧ (flb_kube_meta_get ⟨some [("namespace_name", "default"), ("pod_name", "myapp")],
            apiEnvOk [("kind", MsgObj.str "Pod")]⟩ []).cache = []
      ∧ (flb_hash_get []
            (cacheKeyOf [("namespace_name", "default"), ("pod_name", "myapp")]) = none →
          (flb_kube_meta_get ⟨some [("namespace_name", "default"), ("pod_name", "myapp")],
              apiEnvOk [("kind", MsgObj.str "Pod")]⟩ []).fetches = 1
          ∧ (flb_kube_meta_get ⟨some [("namespace_name", "default"), ("pod_name", "myapp")],
              apiEnvOk [("kind", MsgObj.str "Pod")]⟩
              ((flb_kube_meta_get ⟨some [("namespace_name", "default"), ("pod_name", "myapp")],
                apiEnvOk [("kind", MsgObj.str "Pod")]⟩ []).cache)).fetches = 1)) :=
  ⟨by decide,
   C4_all_or_nothing [("namespace_name", "default"), ("pod_name", "myapp")]
     [("kind", MsgObj.str "Pod")] [] (by decide)⟩

/-- Claim C7: once the cache is populated for a key, every subsequent
resolution of any tag sharing that key takes the cache-hit branch: it
issues no remote fetch, returns exactly the bytes that were inserted,
and leaves the cache unchanged (so every further read behaves the same
way). -/
theorem C7_cache_idempotence (c : Cache) (rr1 rr2 : List (String × String))
    (api1 api2 : ApiEnv) (key : String) (mg : MergedBuf)
    (hk1 : cacheKeyOf rr1 = some key)
    (hk2 : cacheKeyOf rr2 = some key)
    (hmiss : flb_hash_get c (some key) = none)
    (hmerge : get_and_merge_meta api1 (localObj rr1) = some mg) :
    (flb_kube_meta_get ⟨some rr1, api1⟩ c).out = some mg
    ∧ (flb_kube_meta_get ⟨some rr1, api1⟩ c).cache = c ++ [(some key, mg)]
    ∧ (flb_kube_meta_get ⟨some rr2, api2⟩ (c ++ [(some key, mg)])).fetches = 0
    ∧ (flb_kube_meta_get ⟨some rr2, api2⟩ (c ++ [(some key, mg)])).out = some mg
    ∧ (flb_kube_meta_get ⟨some rr2, api2⟩ (c ++ [(some key, mg)])).cache
        = c ++ [(some key, mg)] := by
  have hkey1 : (match firstValS "pod_name" rr1, firstValS "namespace_name" rr1 with
      | some p, some ns => some (ns ++ ":" ++ p)
      | _, _ => none) = some key := by
    rw [← cacheKeyOf_eq]; exact hk1
  have hkey2 : (match firstValS "pod_name" rr2, firstValS "namespace_name" rr2 with
      | some p, some ns => some (ns ++ ":" ++ p)
      | _, _ => none) = some key := by
    rw [← cacheKeyOf_eq]; exact hk2
  have hhit := flb_hash_get_append mg c (some key) hmiss
  have hbyid := flb_hash_get_by_id_append mg c (some key)
  have e1 : flb_kube_meta_get ⟨some rr1, api1⟩ c
      = { ret := 0, out := some mg, fetches := 1, cache := c ++ [(some key, mg)] } := by
    simp only [flb_kube_meta_get, tag_to_meta_some]
    rw [hkey1, hmiss, hmerge]
    simp only [flb_hash_add]
    rw [if_pos (show Int.ofNat (List.length c) ≥ 0 from Int.ofNat_nonneg c.length)]
    simp
    exact_mod_cast hbyid
  have e2 : flb_kube_meta_get ⟨some rr2, api2⟩ (c ++ [(some key, mg)])
      = { ret := 0, out := some mg, fetches := 0,
          cache := c ++ [(some key, mg)] } := by
    simp only [flb_kube_meta_get, tag_to_meta_some]
    rw [hkey2, hhit]
  exact ⟨by rw [e1], by rw [e1], by rw [e2], by rw [e2], by rw [e2]⟩

/-- Witness for C7: populating an empty cache for key `default:myapp`
from a response whose metadata holds uid u1, then resolving the same
tag again. -/
theorem C7_cache_idempotence_witness :
    cacheKeyOf [("namespace_name", "default"), ("pod_name", "myapp")]
        = some "default:myapp"
    ∧ flb_hash_get [] (some "default:myapp") = none
    ∧ get_and_merge_meta (apiEnvOk [("metadata", MsgObj.map [("uid", MsgObj.str "u1")])])
        (localObj [("namespace_name", "default"), ("pod_name", "myapp")])
      = some (3, [("namespace_name", MsgObj.str "default"),
          ("pod_name", MsgObj.str "myapp"), ("pod_id", MsgObj.str "u1")])
    ∧ ((flb_kube_meta_get ⟨some [("namespace_name", "default"), ("pod_name", "myapp")],
          apiEnvOk [("metadata", MsgObj.map [("uid", MsgObj.str "u1")])]⟩ []).out
        = some (3, [("namespace_name", MsgObj.str "default"),
            ("pod_name", MsgObj.str "myapp"), ("pod_id", MsgObj.str "u1")])
      ∧ (flb_kube_meta_get ⟨some [("namespace_name", "default"), ("pod_name", "myapp")],
          apiEnvOk [("metadata", MsgObj.map [("uid", MsgObj.str "u1")])]⟩ []).cache
        = [] ++ [(some "default:myapp",
            (3, [("namespace_name", MsgObj.str "default"),
              ("pod_name", MsgObj.str "myapp"), ("pod_id", MsgObj.str "u1")]))]
      ∧ (flb_kube_meta_get ⟨some [("namespace_name", "default"), ("pod_name", "myapp")],
            apiEnvOk []⟩
          ([] ++ [(some "default:myapp",
            (3, [("namespace_name", MsgObj.str "default"),
              ("pod_name", MsgObj.str "myapp"), ("pod_id", MsgObj.str "u1")]))])).fetches = 0
      ∧ (flb_kube_meta_get ⟨some [("namespace_name", "default"), ("pod_name", "myapp")],
            apiEnvOk []⟩
          ([] ++ [(some "default:myapp",
            (3, [("namespace_name", MsgObj.str "default"),
              ("pod_name", MsgObj.str "myapp"), ("pod_id", MsgObj.str "u1")]))])).out
        = some (3, [("namespace_name", MsgObj.str "default"),
            ("pod_name", MsgObj.str "myapp"), ("pod_id", MsgObj.str "u1")])
      ∧ (flb_kube_meta_get ⟨some [("namespace_name", "default"), ("pod_name", "myapp")],
            apiEnvOk []⟩
          ([] ++ [(some "default:myapp",
            (3, [("namespace_name", MsgObj.str "default"),
              ("pod_name", MsgObj.str "myapp"), ("pod_id", MsgObj.str "u1")]))])).cache
        = [] ++ [(some "default:myapp",
            (3, [("namespace_name", MsgObj.str "default"),
              ("pod_name", MsgObj.str "myapp"), ("pod_id", MsgObj.str "u1")]))]) :=
  ⟨by decide, rfl, rfl,
   C7_cache_idempotence [] [("namespace_name", "default"), ("pod_name", "myapp")]
     [("namespace_name", "default"), ("pod_name", "myapp")]
     (apiEnvOk [("metadata", MsgObj.map [("uid", MsgObj.str "u1")])])
     (apiEnvOk []) "default:myapp"
     (3, [("namespace_name", MsgObj.str "default"),
       ("pod_name", MsgObj.str "myapp"), ("pod_id", MsgObj.str "u1")])
     (by decide) (by decide) rfl rfl⟩

end Kube
